import Mathlib

/-!
Shallow embedding of the BookStore application's catalog, auth and file-intake
logic, translated from the C# backend (`BookRepository`, `BooksController`,
`AuthController`, `FilesController`, the DTO validation attributes) and the
TypeScript dashboard (`Dashboard.loadStats`).

Modelling conventions:
* `Guid` and `DateTime` values are opaque and modelled as `Nat`.
* C# `decimal` is modelled as `ℚ` (exact arithmetic, matching `decimal(10,2)`
  semantics for the operations used: comparison and addition).
* The books table is a `List Book`; Entity Framework's primary-key uniqueness
  is an explicit `Nodup` hypothesis where a theorem needs it.
* `async` plumbing is dropped; each operation is a pure function, stateful
  ones return the new table alongside their result.
-/

namespace BookStore

/-- `User` entity (Models/User.cs). `PasswordHash`/`Books` nav collection kept
only where used. -/
structure User where
  id : Nat
  email : String
  passwordHash : String
  fullName : Option String
  createdAt : Nat
  updatedAt : Nat
  deriving Repr, DecidableEq

/-- `Book` entity (Models/Book.cs). The `User` navigation property is
`user : Option User` (`none` when not loaded / null). -/
structure Book where
  id : Nat
  name : String
  category : String
  price : ℚ
  description : String
  userId : Nat
  createdAt : Nat
  updatedAt : Nat
  imageUrl : Option String
  fileUrl : Option String
  fileName : Option String
  fileSize : Option Nat
  user : Option User
  deriving Repr, DecidableEq

/-- `BookFiltersDto` (DTOs/BookDTOs.cs); the unused `Page`/`PageSize` fields
are omitted (never read by the repository). -/
structure BookFiltersDto where
  search : Option String
  category : Option String
  minPrice : Option ℚ
  maxPrice : Option ℚ
  deriving Repr, DecidableEq

/-- C# `string.IsNullOrEmpty` over a nullable string. -/
def isNullOrEmpty : Option String → Bool
  | none => true
  | some s => s.isEmpty

/-- `charsStartWith n h`: the char list `h` starts with `n`. -/
def charsStartWith : List Char → List Char → Bool
  | [], _ => true
  | _ :: _, [] => false
  | a :: as, b :: bs => a == b && charsStartWith as bs

/-- `charsContain n h`: `n` occurs as a contiguous run inside `h`
(C# `string.Contains` over the char sequences). -/
def charsContain (needle hay : List Char) : Bool :=
  charsStartWith needle hay ||
    match hay with
    | [] => false
    | _ :: rest => charsContain needle rest

/-- `string.ToLower` / `ToLowerInvariant`, modelled characterwise. -/
def strToLower (s : String) : String :=
  String.mk (s.toList.map Char.toLower)

/-- C# `hay.ToLower().Contains(needle)` where `needle` is already lowered:
case-insensitive substring test. -/
def containsCI (hay needle : String) : Bool :=
  charsContain ((strToLower needle).toList) ((strToLower hay).toList)

/-- One book against the `Search` clause of `BookRepository.GetAllAsync`
(`Name.ToLower().Contains(searchLower) || Description.ToLower().Contains(searchLower)`). -/
def matchesSearch (s : String) (b : Book) : Bool :=
  containsCI b.name s || containsCI b.description s

/-- The conjunction of `Where` clauses `BookRepository.GetAllAsync` builds
from a (nullable) `BookFiltersDto`. -/
def matchesFilters (filters : Option BookFiltersDto) (b : Book) : Bool :=
  match filters with
  | none => true
  | some f =>
    (if isNullOrEmpty f.search then true else matchesSearch (f.search.getD "") b) &&
    (if isNullOrEmpty f.category then true else b.category == f.category.getD "") &&
    (match f.minPrice with | none => true | some m => decide (m ≤ b.price)) &&
    (match f.maxPrice with | none => true | some m => decide (b.price ≤ m))

/-- `OrderByDescending(b => b.CreatedAt)`: stable insertion of one element
into a list already sorted by `createdAt` descending. -/
def insertByCreatedAtDesc (b : Book) : List Book → List Book
  | [] => [b]
  | x :: xs =>
    if x.createdAt < b.createdAt then b :: x :: xs
    else x :: insertByCreatedAtDesc b xs

/-- `OrderByDescending(b => b.CreatedAt)` over a whole list (stable sort). -/
def orderByCreatedAtDesc (l : List Book) : List Book :=
  l.foldr insertByCreatedAtDesc []

/-- `BookRepository.GetAllAsync`: global listing, filter clauses then
`OrderByDescending(CreatedAt)`. -/
def GetAllAsync (books : List Book) (filters : Option BookFiltersDto) : List Book :=
  orderByCreatedAtDesc (books.filter (matchesFilters filters))

/-- `BookRepository.GetByUserIdAsync`: identical filter clauses on top of the
`b.UserId == userId` restriction. -/
def GetByUserIdAsync (books : List Book) (userId : Nat)
    (filters : Option BookFiltersDto) : List Book :=
  orderByCreatedAtDesc
    ((books.filter (fun b => b.userId == userId)).filter (matchesFilters filters))

/-- `BookRepository.GetByIdAsync`: `FirstOrDefaultAsync(b => b.Id == id)`. -/
def GetByIdAsync (books : List Book) (id : Nat) : Option Book :=
  books.find? (fun b => b.id == id)

/-- `BookRepository.ExistsAsync`: `AnyAsync(b => b.Id == id && b.UserId == userId)`. -/
def ExistsAsync (books : List Book) (id userId : Nat) : Bool :=
  books.any (fun b => b.id == id && b.userId == userId)

/-- `BookRepository.DeleteAsync`: find the first book with matching id AND
owner; absent ⇒ `false` and no change, present ⇒ remove that record, `true`. -/
def DeleteAsync (books : List Book) (id userId : Nat) : Bool × List Book :=
  match books.find? (fun b => b.id == id && b.userId == userId) with
  | none => (false, books)
  | some _ => (true, books.eraseP (fun b => b.id == id && b.userId == userId))

/-- `BookStoreContext.UpdateTimestamps` applied to an added `Book` entity:
`CreatedAt` and `UpdatedAt` both set to `DateTime.UtcNow`. -/
def stampAdded (now : Nat) (b : Book) : Book :=
  { b with createdAt := now, updatedAt := now }

/-- `BookStoreContext.UpdateTimestamps` applied to a modified `Book` entity:
only `UpdatedAt` refreshed. -/
def stampModified (now : Nat) (b : Book) : Book :=
  { b with updatedAt := now }

/-- `BookRepository.CreateAsync`: add (timestamps stamped by `SaveChanges`),
then re-read by id; `now` is `DateTime.UtcNow` at save time. -/
def CreateAsync (books : List Book) (book : Book) (now : Nat) : Book × List Book :=
  let b := stampAdded now book
  let books2 := books ++ [b]
  ((GetByIdAsync books2 b.id).getD b, books2)

/-- `BookRepository.UpdateAsync`: write the entity back by primary key
(`UpdatedAt` refreshed by `SaveChanges`), then re-read by id. -/
def UpdateAsync (books : List Book) (book : Book) (now : Nat) : Book × List Book :=
  let b := stampModified now book
  let books2 := books.map (fun x => if x.id == b.id then b else x)
  ((GetByIdAsync books2 b.id).getD b, books2)

/-- `UserDto` (public user view): id, email, fullName, createdAt — never the
password hash. -/
structure UserDto where
  id : Nat
  email : String
  fullName : Option String
  createdAt : Nat
  deriving Repr, DecidableEq

/-- `BookDto` (DTOs/BookDTOs.cs): the view returned by every books endpoint. -/
structure BookDto where
  id : Nat
  name : String
  category : String
  price : ℚ
  description : String
  userId : Nat
  createdAt : Nat
  updatedAt : Nat
  imageUrl : Option String
  fileUrl : Option String
  fileName : Option String
  fileSize : Option Nat
  user : Option UserDto
  deriving Repr, DecidableEq

/-- `BooksController.MapToDto`: copies every book field into the view and,
when the `User` navigation property is loaded, nests the owner's public view
(including the email). -/
def MapToDto (book : Book) : BookDto :=
  { id := book.id
  , name := book.name
  , category := book.category
  , price := book.price
  , description := book.description
  , userId := book.userId
  , createdAt := book.createdAt
  , updatedAt := book.updatedAt
  , imageUrl := book.imageUrl
  , fileUrl := book.fileUrl
  , fileName := book.fileName
  , fileSize := book.fileSize
  , user := book.user.map (fun u =>
      { id := u.id, email := u.email, fullName := u.fullName
      , createdAt := u.createdAt }) }

/-- `CreateBookDto` = `UpdateBookDto` (same fields and validation attributes). -/
structure CreateBookDto where
  name : String
  category : String
  price : ℚ
  description : String
  imageUrl : Option String
  fileUrl : Option String
  fileName : Option String
  fileSize : Option Nat
  deriving Repr, DecidableEq

/-- The DataAnnotations validation of `CreateBookDto`/`UpdateBookDto`:
`[Required]`+`[MaxLength(255)]` name, `[Required]`+`[MaxLength(100)]`
category, `[Required]`+`[Range(0, 99999.99)]` price,
`[Required]`+`[MaxLength(1000)]` description. `[Required]` on a string
rejects null/empty; on the non-nullable `decimal` it is a no-op. -/
def validBookDto (d : CreateBookDto) : Bool :=
  (!d.name.isEmpty) && d.name.length ≤ 255 &&
  (!d.category.isEmpty) && d.category.length ≤ 100 &&
  decide (0 ≤ d.price) && decide (d.price ≤ mkRat 9999999 100) &&
  (!d.description.isEmpty) && d.description.length ≤ 1000

/-- Outcome of a books endpoint returning a view. -/
inductive BookActionResult where
  | notFound (msg : String)
  | badRequest (msg : String)
  | ok (dto : BookDto)
  deriving Repr, DecidableEq

/-- `BooksController.GetAllBooks` (public, no `[Authorize]`). -/
def GetAllBooks (books : List Book) (filters : Option BookFiltersDto) : List BookDto :=
  (GetAllAsync books filters).map MapToDto

/-- `BooksController.GetMyBooks` (`[Authorize]`, caller id from the token). -/
def GetMyBooks (books : List Book) (userId : Nat)
    (filters : Option BookFiltersDto) : List BookDto :=
  (GetByUserIdAsync books userId filters).map MapToDto

/-- `BooksController.GetBook` (public): by-id lookup, 404 when absent. -/
def GetBook (books : List Book) (id : Nat) : BookActionResult :=
  match GetByIdAsync books id with
  | none => .notFound "Book not found"
  | some book => .ok (MapToDto book)

/-- `BooksController.CreateBook` (`[Authorize]`): model binding validates the
DTO (automatic 400 from `[ApiController]`); the controller then builds a
`Book` with `UserId` forced to the caller and persists it. `newId` stands for
the `Guid.NewGuid()` the `Book` model assigns, `now` for save time. -/
def CreateBook (books : List Book) (requesterId : Nat) (dto : CreateBookDto)
    (newId now : Nat) : BookActionResult × List Book :=
    let book : Book :=
      { id := newId
      , name := dto.name
      , category := dto.category
      , price := dto.price
      , description := dto.description
      , userId := requesterId
      , createdAt := 0
      , updatedAt := 0
      , imageUrl := dto.imageUrl
      , fileUrl := dto.fileUrl
      , fileName := dto.fileName
      , fileSize := dto.fileSize
      , user := none }
    let (created, books2) := CreateAsync books book now
    (.ok (MapToDto created), books2)

/-- `BooksController.UpdateBook` (`[Authorize]`): 404 unless a book with this
id exists AND belongs to the caller (`ExistsAsync(id, userId)`); then 404 if
the re-read misses; otherwise overwrite the mutable fields and persist. -/
def UpdateBook (books : List Book) (id requesterId : Nat) (dto : CreateBookDto)
    (now : Nat) : BookActionResult × List Book :=
  if !ExistsAsync books id requesterId then
    (.notFound "Book not found or you don't have permission to update it", books)
  else
    match GetByIdAsync books id with
    | none => (.notFound "Book not found", books)
    | some existingBook =>
      let changed :=
        { existingBook with
          name := dto.name
        , category := dto.category
        , price := dto.price
        , description := dto.description
        , imageUrl := dto.imageUrl
        , fileUrl := dto.fileUrl
        , fileName := dto.fileName
        , fileSize := dto.fileSize }
      let (updated, books2) := UpdateAsync books changed now
      (.ok (MapToDto updated), books2)

/-- `CreateBook` behind ASP.NET `[ApiController]` model binding: an invalid
DTO is rejected with an automatic 400 before the action body (and hence
before any persistence) runs. -/
def CreateBookEndpoint (books : List Book) (requesterId : Nat)
    (dto : CreateBookDto) (newId now : Nat) : BookActionResult × List Book :=
  if !validBookDto dto then (.badRequest "Validation failed", books)
  else CreateBook books requesterId dto newId now

/-- `UpdateBook` behind ASP.NET `[ApiController]` model binding. -/
def UpdateBookEndpoint (books : List Book) (id requesterId : Nat)
    (dto : CreateBookDto) (now : Nat) : BookActionResult × List Book :=
  if !validBookDto dto then (.badRequest "Validation failed", books)
  else UpdateBook books id requesterId dto now

/-- Outcome of `BooksController.DeleteBook`. -/
inductive DeleteActionResult where
  | notFound (msg : String)
  | noContent
  deriving Repr, DecidableEq

/-- `BooksController.DeleteBook` (`[Authorize]`): owner-scoped repository
delete; 404 when it reports `false`, 204 when it removed the record. -/
def DeleteBook (books : List Book) (id requesterId : Nat) :
    DeleteActionResult × List Book :=
  let (deleted, books2) := DeleteAsync books id requesterId
  if !deleted then (.notFound "Book not found or you don't have permission to delete it", books2)
  else (.noContent, books2)

/-- Statistics triple of `Dashboard.loadStats` (src/components/Dashboard.tsx). -/
structure BookStats where
  totalBooks : Nat
  totalValue : ℚ
  categoriesCount : Nat
  deriving Repr, DecidableEq

/-- `Dashboard.loadStats`: fetches `apiService.getMyBooks()` (the caller's
books, no filter) and computes length, `reduce((sum, b) => sum + b.price, 0)`
and `new Set(map(category)).size`. -/
def loadStats (books : List Book) (userId : Nat) : BookStats :=
  let allBooks := GetMyBooks books userId none
  { totalBooks := allBooks.length
  , totalValue := allBooks.foldl (fun sum b => sum + b.price) 0
  , categoriesCount := ((allBooks.map BookDto.category).dedup).length }

/-- Outcome of `AuthController.Login` / `Register`. -/
inductive AuthResult where
  | badRequest (msg : String)
  | ok (token : String) (user : UserDto)
  deriving Repr, DecidableEq

/-- `AuthController.Login`: look the user up by email; unknown email and
wrong password both yield `BadRequest` with the same generic message.
`findByEmail` stands for `IUserRepository.GetByEmailAsync`, `verify` for
`BCrypt.Verify(password, hash)`, `generateToken` for
`ITokenService.GenerateToken` — all external collaborators passed in. -/
def Login (findByEmail : String → Option User) (verify : String → String → Bool)
    (generateToken : User → String) (email password : String) : AuthResult :=
  match findByEmail email with
  | none => .badRequest "Invalid email or password"
  | some user =>
    if !verify password user.passwordHash then
      .badRequest "Invalid email or password"
    else
      .ok (generateToken user)
        { id := user.id, email := user.email, fullName := user.fullName
        , createdAt := user.createdAt }

/-- One uploaded form file as the `FilesController` sees it: `file.Length`
and `file.FileName`. -/
structure FormFile where
  length : Nat
  fileName : String
  deriving Repr, DecidableEq

/-- `.NET Path.GetExtension`: the substring from the last `'.'` (dot
included); empty when there is no dot or the dot is the final character. -/
def getExtension (name : String) : String :=
  match (name.toList.reverse).findIdx? (· == '.') with
  | none => ""
  | some 0 => ""
  | some (k + 1) => String.mk ('.' :: ((name.toList.reverse.take (k + 1)).reverse))

/-- `FilesController._allowedImageExtensions`. -/
def allowedImageExtensions : List String :=
  [".jpg", ".jpeg", ".png", ".gif", ".webp"]

/-- `FilesController._allowedBookExtensions`. -/
def allowedBookExtensions : List String :=
  [".pdf", ".epub", ".docx", ".doc", ".txt", ".mobi", ".azw3"]

/-- `FilesController.MaxImageSize` = 5 MiB. -/
def MaxImageSize : Nat := 5 * 1024 * 1024

/-- `FilesController.MaxBookSize` = 100 MiB. -/
def MaxBookSize : Nat := 100 * 1024 * 1024

/-- Outcome of an upload endpoint. -/
inductive UploadResult where
  | badRequest (msg : String)
  | ok (fileName : String) (size : Nat)
  deriving Repr, DecidableEq

/-- Shared body of `FilesController.UploadImage` / `UploadBookFile`,
parameterised by the size cap, allow-list and messages. Checks, in source
order: null/empty payload, size cap, lower-cased extension against the
allow-list; only then writes `storedName` into `storage` (the uploads
directory, modelled as the list of stored file names). -/
def uploadFile (cap : Nat) (allowed : List String) (sizeMsg typeMsg : String)
    (file : Option FormFile) (storedName : String) (storage : List String) :
    UploadResult × List String :=
  match file with
  | none => (.badRequest "No file provided", storage)
  | some f =>
    if f.length = 0 then (.badRequest "No file provided", storage)
    else if cap < f.length then (.badRequest sizeMsg, storage)
    else if !allowed.contains (strToLower (getExtension f.fileName)) then
      (.badRequest typeMsg, storage)
    else (.ok f.fileName f.length, storage ++ [storedName])

/-- `FilesController.UploadImage`. -/
def UploadImage (file : Option FormFile) (storedName : String)
    (storage : List String) : UploadResult × List String :=
  uploadFile MaxImageSize allowedImageExtensions
    "File size exceeds maximum allowed size of 5MB"
    "Invalid file type. Only image files are allowed."
    file storedName storage

/-- `FilesController.UploadBookFile`. -/
def UploadBookFile (file : Option FormFile) (storedName : String)
    (storage : List String) : UploadResult × List String :=
  uploadFile MaxBookSize allowedBookExtensions
    "File size exceeds maximum allowed size of 100MB"
    "Invalid file type. Only book files (PDF, EPUB, DOCX, etc.) are allowed."
    file storedName storage

/-- `f'` imposes, field by field, a constraint no stronger than `f`: each
field is unchanged, dropped (absent or empty string), or — for the price
bounds — widened. -/
def FilterRelaxed (f' f : BookFiltersDto) : Prop :=
  (f'.search = f.search ∨ isNullOrEmpty f'.search = true) ∧
  (f'.category = f.category ∨ isNullOrEmpty f'.category = true) ∧
  (f'.minPrice = f.minPrice ∨ f'.minPrice = none ∨
    (∃ m' m, f'.minPrice = some m' ∧ f.minPrice = some m ∧ m' ≤ m)) ∧
  (f'.maxPrice = f.maxPrice ∨ f'.maxPrice = none ∨
    (∃ m' m, f'.maxPrice = some m' ∧ f.maxPrice = some m ∧ m ≤ m'))

/-! ### Supporting lemmas -/

theorem mem_insertByCreatedAtDesc {x b : Book} {l : List Book} :
    x ∈ insertByCreatedAtDesc b l ↔ x = b ∨ x ∈ l := by
  induction l with
  | nil => simp [insertByCreatedAtDesc]
  | cons c cs ih =>
    simp only [insertByCreatedAtDesc]
    split
    · simp
    · simp [ih]
      tauto

theorem mem_orderByCreatedAtDesc {x : Book} {l : List Book} :
    x ∈ orderByCreatedAtDesc l ↔ x ∈ l := by
  induction l with
  | nil => simp [orderByCreatedAtDesc]
  | cons c cs ih =>
    simp only [orderByCreatedAtDesc, List.foldr_cons] at *
    rw [mem_insertByCreatedAtDesc, ih]
    simp

theorem mem_GetAllAsync {b : Book} {books : List Book}
    {filters : Option BookFiltersDto} :
    b ∈ GetAllAsync books filters ↔ b ∈ books ∧ matchesFilters filters b = true := by
  rw [GetAllAsync, mem_orderByCreatedAtDesc, List.mem_filter]

theorem mem_GetByUserIdAsync {b : Book} {books : List Book} {userId : Nat}
    {filters : Option BookFiltersDto} :
    b ∈ GetByUserIdAsync books userId filters ↔
      b ∈ books ∧ b.userId = userId ∧ matchesFilters filters b = true := by
  rw [GetByUserIdAsync, mem_orderByCreatedAtDesc, List.mem_filter, List.mem_filter]
  simp [and_assoc]

theorem search_clause_iff {os : Option String} {b : Book} :
    ((if isNullOrEmpty os then true else matchesSearch (os.getD "") b) = true) ↔
      ∀ s, os = some s → s ≠ "" →
        (containsCI b.name s = true ∨ containsCI b.description s = true) := by
  cases os with
  | none => simp [isNullOrEmpty]
  | some s =>
    simp only [isNullOrEmpty]
    by_cases hB : s.isEmpty = true
    · have hs : s = "" := by rwa [String.isEmpty_iff] at hB
      subst hs
      simp [hB]
    · have hs : s ≠ "" := by
        intro h
        subst h
        exact hB rfl
      simp [hB, matchesSearch, hs, Bool.or_eq_true]

theorem category_clause_iff {oc : Option String} {b : Book} :
    ((if isNullOrEmpty oc then true else b.category == oc.getD "") = true) ↔
      ∀ c, oc = some c → c ≠ "" → b.category = c := by
  cases oc with
  | none => simp [isNullOrEmpty]
  | some c =>
    simp only [isNullOrEmpty]
    by_cases hB : c.isEmpty = true
    · have hc : c = "" := by rwa [String.isEmpty_iff] at hB
      subst hc
      simp [hB]
    · have hc : c ≠ "" := by
        intro h
        subst h
        exact hB rfl
      simp [hB, hc]

theorem minPrice_clause_iff {om : Option ℚ} {b : Book} :
    ((match om with | none => true | some m => decide (m ≤ b.price)) = true) ↔
      ∀ m, om = some m → m ≤ b.price := by
  cases om <;> simp

theorem maxPrice_clause_iff {om : Option ℚ} {b : Book} :
    ((match om with | none => true | some m => decide (b.price ≤ m)) = true) ↔
      ∀ m, om = some m → b.price ≤ m := by
  cases om <;> simp

/-- The filter clauses of `GetAllAsync`, characterised field by field, as the
spec states them: case-insensitive substring on name OR description, exact
category match, inclusive price bounds, absent (or empty-string) fields
unconstrained. -/
theorem matchesFilters_iff {f : BookFiltersDto} {b : Book} :
    matchesFilters (some f) b = true ↔
      (∀ s, f.search = some s → s ≠ "" →
        (containsCI b.name s = true ∨ containsCI b.description s = true)) ∧
      (∀ c, f.category = some c → c ≠ "" → b.category = c) ∧
      (∀ m, f.minPrice = some m → m ≤ b.price) ∧
      (∀ m, f.maxPrice = some m → b.price ≤ m) := by
  simp only [matchesFilters, Bool.and_eq_true]
  rw [search_clause_iff, category_clause_iff, minPrice_clause_iff, maxPrice_clause_iff]
  tauto

theorem isNullOrEmpty_forall {os : Option String} (h : isNullOrEmpty os = true)
    {P : String → Prop} : ∀ s, os = some s → s ≠ "" → P s := by
  intro s hs hne
  subst hs
  simp [isNullOrEmpty, String.isEmpty_iff] at h
  exact absurd h hne

theorem matchesFilters_relaxed {f' f : BookFiltersDto} {b : Book}
    (hrel : FilterRelaxed f' f) (h : matchesFilters (some f) b = true) :
    matchesFilters (some f') b = true := by
  rw [matchesFilters_iff] at h ⊢
  obtain ⟨hs, hc, hmn, hmx⟩ := h
  obtain ⟨rs, rc, rmn, rmx⟩ := hrel
  refine ⟨?_, ?_, ?_, ?_⟩
  · rcases rs with rs | rs
    · rw [rs]; exact hs
    · exact isNullOrEmpty_forall rs
  · rcases rc with rc | rc
    · rw [rc]; exact hc
    · exact isNullOrEmpty_forall rc
  · rcases rmn with rmn | rmn | ⟨m', m, hm', hm, hle⟩
    · rw [rmn]; exact hmn
    · intro m hm; rw [rmn] at hm; exact absurd hm (by simp)
    · intro m'' hm''
      rw [hm'] at hm''
      injection hm'' with hm''
      subst hm''
      exact le_trans hle (hmn m hm)
  · rcases rmx with rmx | rmx | ⟨m', m, hm', hm, hle⟩
    · rw [rmx]; exact hmx
    · intro m hm; rw [rmx] at hm; exact absurd hm (by simp)
    · intro m'' hm''
      rw [hm'] at hm''
      injection hm'' with hm''
      subst hm''
      exact le_trans (hmx m hm) hle

/-! ### Claims -/

/-- C2: `listAll(filter)` returns exactly the stored books satisfying every
specified predicate conjoined — `search` a case-insensitive substring match
against name OR description, `category` an exact match, `minPrice`/`maxPrice`
inclusive bounds — an absent field imposing no constraint; and relaxing any
predicate yields a superset or equal result set. -/
theorem listAll_filters_exact_and_monotone
    (books : List Book) (f : BookFiltersDto) (b : Book) :
    (b ∈ GetAllAsync books (some f) ↔ b ∈ books ∧
      (∀ s, f.search = some s → s ≠ "" →
        (containsCI b.name s = true ∨ containsCI b.description s = true)) ∧
      (∀ c, f.category = some c → c ≠ "" → b.category = c) ∧
      (∀ m, f.minPrice = some m → m ≤ b.price) ∧
      (∀ m, f.maxPrice = some m → b.price ≤ m)) ∧
    (∀ f' : BookFiltersDto, FilterRelaxed f' f →
      b ∈ GetAllAsync books (some f) → b ∈ GetAllAsync books (some f')) := by
  constructor
  · rw [mem_GetAllAsync, matchesFilters_iff]
  · intro f' hrel hmem
    rw [mem_GetAllAsync] at hmem ⊢
    exact ⟨hmem.1, matchesFilters_relaxed hrel hmem.2⟩

/-- C8: every book listed by the owner-scoped query is also listed by the
global query under the same filter. -/
theorem listByOwner_subset_listAll
    (books : List Book) (u : Nat) (f : Option BookFiltersDto) (b : Book)
    (h : b ∈ GetByUserIdAsync books u f) : b ∈ GetAllAsync books f := by
  rw [mem_GetByUserIdAsync] at h
  rw [mem_GetAllAsync]
  exact ⟨h.1, h.2.2⟩

/-- When the book table has unique ids and `b`'s owner is not `r`, no record
at all matches the combined `Id == b.id && UserId == r` predicate. -/
theorem no_record_matches_foreign {books : List Book} {b : Book} {r : Nat}
    (hnd : (books.map Book.id).Nodup) (hmem : b ∈ books) (hown : b.userId ≠ r) :
    ∀ x ∈ books, ¬((x.id == b.id && x.userId == r) = true) := by
  intro x hx hpx
  simp only [Bool.and_eq_true, beq_iff_eq] at hpx
  have hxb : x = b := List.inj_on_of_nodup_map hnd hx hmem hpx.1
  subst hxb
  exact hown hpx.2

/-- C1: updating or deleting a book as a non-owner yields the collapsed
not-found outcome and leaves the stored table — in particular the book's own
record — unchanged: both paths re-check `ownerId == requesterId` (as the
single predicate `Id == id && UserId == userId`) before any effect. -/
theorem foreign_update_delete_notFound_unchanged
    (books : List Book) (b : Book) (r : Nat) (dto : CreateBookDto) (now : Nat)
    (hnd : (books.map Book.id).Nodup) (hmem : b ∈ books) (hown : b.userId ≠ r) :
    UpdateBook books b.id r dto now =
      (.notFound "Book not found or you don't have permission to update it", books) ∧
    DeleteAsync books b.id r = (false, books) := by
  have hno := no_record_matches_foreign hnd hmem hown
  have hex : ExistsAsync books b.id r = false := by
    rw [ExistsAsync]
    by_contra h
    rw [Bool.not_eq_false, List.any_eq_true] at h
    obtain ⟨x, hx, hpx⟩ := h
    exact hno x hx hpx
  have hfind : books.find? (fun x => x.id == b.id && x.userId == r) = none :=
    List.find?_eq_none.mpr hno
  constructor
  · simp [UpdateBook, hex]
  · simp [DeleteAsync, hfind]

theorem foreign_update_delete_witness :
    let u2 : Nat := 2
    let bw : Book :=
      { id := 10, name := "B", category := "C", price := 1,
        description := "D", userId := 1, createdAt := 0, updatedAt := 0,
        imageUrl := none, fileUrl := none, fileName := none, fileSize := none,
        user := none }
    let dtow : CreateBookDto :=
      { name := "X", category := "Y", price := 2,
        description := "Z", imageUrl := none, fileUrl := none,
        fileName := none, fileSize := none }
    UpdateBook [bw] 10 u2 dtow 9 =
      (.notFound "Book not found or you don't have permission to update it", [bw]) ∧
    DeleteAsync [bw] 10 u2 = (false, [bw]) := by
  intro u2 bw dtow
  exact foreign_update_delete_notFound_unchanged [bw] bw u2 dtow 9
    (by decide) (by decide) (by decide)

/-- If no element of `l₁` satisfies `p`, searching `l₁ ++ l₂` searches `l₂`. -/
theorem find?_append_of_none {α : Type} {p : α → Bool} {l₁ l₂ : List α}
    (h : l₁.find? p = none) : (l₁ ++ l₂).find? p = l₂.find? p := by
  rw [List.find?_append, h, Option.none_or]

/-- C3: creating a book with valid fields and then fetching it by the
returned id yields a record carrying all supplied fields verbatim, with
`id`, `ownerId` (forced to the requester) and both timestamps assigned by
the server. -/
theorem create_then_getById_roundtrip
    (books : List Book) (r : Nat) (dto : CreateBookDto) (newId now : Nat)
    (hvalid : validBookDto dto = true) (hfresh : ∀ x ∈ books, x.id ≠ newId) :
    ∃ c : Book,
      CreateBookEndpoint books r dto newId now = (.ok (MapToDto c), books ++ [c]) ∧
      GetByIdAsync (books ++ [c]) newId = some c ∧
      c.name = dto.name ∧ c.category = dto.category ∧ c.price = dto.price ∧
      c.description = dto.description ∧ c.imageUrl = dto.imageUrl ∧
      c.fileUrl = dto.fileUrl ∧ c.fileName = dto.fileName ∧
      c.fileSize = dto.fileSize ∧
      c.id = newId ∧ c.userId = r ∧ c.createdAt = now ∧ c.updatedAt = now := by
  refine
    ⟨{ id := newId, name := dto.name, category := dto.category,
       price := dto.price, description := dto.description, userId := r,
       createdAt := now, updatedAt := now, imageUrl := dto.imageUrl,
       fileUrl := dto.fileUrl, fileName := dto.fileName,
       fileSize := dto.fileSize, user := none }, ?_, ?_, by simp_all⟩
  · have hfind : books.find? (fun x => x.id == newId) = none := by
      rw [List.find?_eq_none]
      intro x hx
      simpa using hfresh x hx
    simp [CreateBookEndpoint, hvalid, CreateBook, CreateAsync, stampAdded,
      GetByIdAsync, find?_append_of_none hfind]
  · have hfind : books.find? (fun x => x.id == newId) = none := by
      rw [List.find?_eq_none]
      intro x hx
      simpa using hfresh x hx
    simp [GetByIdAsync, find?_append_of_none hfind]

theorem create_then_getById_witness :
    let dtow : CreateBookDto :=
      { name := "N", category := "C", price := 5,
        description := "DD", imageUrl := some "i", fileUrl := some "f",
        fileName := some "n.pdf", fileSize := some 7 }
    ∃ c : Book,
      CreateBookEndpoint [] 3 dtow 42 11 = (.ok (MapToDto c), [] ++ [c]) ∧
      GetByIdAsync ([] ++ [c]) 42 = some c ∧
      c.name = dtow.name ∧ c.category = dtow.category ∧ c.price = dtow.price ∧
      c.description = dtow.description ∧ c.imageUrl = dtow.imageUrl ∧
      c.fileUrl = dtow.fileUrl ∧ c.fileName = dtow.fileName ∧
      c.fileSize = dtow.fileSize ∧
      c.id = 42 ∧ c.userId = 3 ∧ c.createdAt = 11 ∧ c.updatedAt = 11 := by
  intro dtow
  exact create_then_getById_roundtrip [] 3 dtow 42 11 (by decide) (by decide)

/-- After the owner-scoped erase of `b` from a table with unique ids, no
remaining record carries `b`'s id. -/
theorem eraseP_owned_removes_id {owner : Nat} :
    ∀ (books : List Book) (b : Book),
      (books.map Book.id).Nodup → b ∈ books → b.userId = owner →
      ∀ x ∈ books.eraseP (fun y => y.id == b.id && y.userId == owner),
        x.id ≠ b.id := by
  intro books
  induction books with
  | nil => intro b _ hmem; cases hmem
  | cons c rest ih =>
    intro b hnd hmem hbo x hx
    rw [List.map_cons, List.nodup_cons] at hnd
    cases hpc : (c.id == b.id && c.userId == owner) with
    | true =>
      rw [List.eraseP_cons, hpc] at hx
      simp only [Bool.and_eq_true, beq_iff_eq] at hpc
      intro hxid
      exact hnd.1 (hpc.1 ▸ hxid ▸ List.mem_map_of_mem Book.id hx)
    | false =>
      rw [List.eraseP_cons, hpc] at hx
      have hbc : b ≠ c := by
        intro h
        subst h
        simp [hbo] at hpc
      have hbrest : b ∈ rest := by
        cases hmem with
        | head => exact absurd rfl hbc
        | tail _ h => exact h
      cases hx with
      | head =>
        intro hxid
        exact hnd.1 (hxid ▸ List.mem_map_of_mem Book.id hbrest)
      | tail _ hx' =>
        exact ih b hnd.2 hbrest hbo x hx'

/-- C4: deleting an owned book succeeds (`true`) and removes it; an
immediately repeated delete of the same id returns `false` without error and
without further change; after the first call the id is absent from every
`listAll` result. -/
theorem delete_twice_semantics
    (books : List Book) (b : Book) (owner : Nat)
    (hnd : (books.map Book.id).Nodup) (hmem : b ∈ books) (hbo : b.userId = owner) :
    ∃ books' : List Book,
      DeleteAsync books b.id owner = (true, books') ∧
      DeleteAsync books' b.id owner = (false, books') ∧
      ∀ (f : Option BookFiltersDto) (x : Book),
        x ∈ GetAllAsync books' f → x.id ≠ b.id := by
  refine ⟨books.eraseP (fun y => y.id == b.id && y.userId == owner), ?_, ?_, ?_⟩
  · have hsome : (books.find? (fun y => y.id == b.id && y.userId == owner)).isSome := by
      rw [List.find?_isSome]
      exact ⟨b, hmem, by simp [hbo]⟩
    obtain ⟨y, hy⟩ := Option.isSome_iff_exists.mp hsome
    simp [DeleteAsync, hy]
  · have hgone := eraseP_owned_removes_id books b hnd hmem hbo
    have hfind :
        (books.eraseP (fun y => y.id == b.id && y.userId == owner)).find?
          (fun y => y.id == b.id && y.userId == owner) = none := by
      rw [List.find?_eq_none]
      intro x hx hpx
      simp only [Bool.and_eq_true, beq_iff_eq] at hpx
      exact hgone x hx hpx.1
    simp [DeleteAsync, hfind]
  · intro f x hx
    rw [mem_GetAllAsync] at hx
    exact eraseP_owned_removes_id books b hnd hmem hbo x hx.1

theorem delete_twice_witness :
    let bw : Book :=
      { id := 5, name := "B", category := "C", price := 3,
        description := "D", userId := 7, createdAt := 1, updatedAt := 1,
        imageUrl := none, fileUrl := none, fileName := none, fileSize := none,
        user := none }
    ∃ books' : List Book,
      DeleteAsync [bw] 5 7 = (true, books') ∧
      DeleteAsync books' 5 7 = (false, books') ∧
      ∀ (f : Option BookFiltersDto) (x : Book),
        x ∈ GetAllAsync books' f → x.id ≠ 5 := by
  intro bw
  exact delete_twice_semantics [bw] bw 7 (by decide) (by decide) (by decide)

/-- C5: the dashboard statistics are exactly the count, price total and
number of distinct categories of the caller's unfiltered book listing — a
pure function of the store recomputed from `listByOwner`, never persisted. -/
theorem stats_from_listByOwner (books : List Book) (u : Nat) :
    loadStats books u =
      { totalBooks := (GetByUserIdAsync books u none).length
      , totalValue := ((GetByUserIdAsync books u none).map Book.price).sum
      , categoriesCount :=
          ((GetByUserIdAsync books u none).map Book.category).toFinset.card } := by
  have hcat : BookDto.category ∘ MapToDto = Book.category := funext fun b => rfl
  have hval :
      ((GetByUserIdAsync books u none).map MapToDto).foldl
          (fun sum b => sum + b.price) 0 =
        ((GetByUserIdAsync books u none).map Book.price).sum := by
    rw [List.sum_eq_foldl, List.foldl_map, List.foldl_map]
    rfl
  simp only [loadStats, GetMyBooks, List.length_map, List.map_map, hcat, hval,
    List.card_toFinset]

/-- C6: both upload endpoints reject, in source order, a missing/empty
payload, then a payload above the kind's size cap (5 MiB images, 100 MiB
documents), then an extension outside the kind's allow-list — each rejection
leaving the stored-file state untouched; an oversized file with a bad
extension draws the size rejection, showing the size check runs first. -/
theorem upload_validation_order_and_no_write
    (f : FormFile) (storedName : String) (storage : List String) :
    (UploadImage none storedName storage = (.badRequest "No file provided", storage)) ∧
    (f.length = 0 →
      UploadImage (some f) storedName storage = (.badRequest "No file provided", storage)) ∧
    (MaxImageSize < f.length →
      UploadImage (some f) storedName storage =
        (.badRequest "File size exceeds maximum allowed size of 5MB", storage)) ∧
    (f.length ≠ 0 → f.length ≤ MaxImageSize →
      strToLower (getExtension f.fileName) ∉ allowedImageExtensions →
      UploadImage (some f) storedName storage =
        (.badRequest "Invalid file type. Only image files are allowed.", storage)) ∧
    (UploadBookFile none storedName storage = (.badRequest "No file provided", storage)) ∧
    (f.length = 0 →
      UploadBookFile (some f) storedName storage = (.badRequest "No file provided", storage)) ∧
    (MaxBookSize < f.length →
      UploadBookFile (some f) storedName storage =
        (.badRequest "File size exceeds maximum allowed size of 100MB", storage)) ∧
    (f.length ≠ 0 → f.length ≤ MaxBookSize →
      strToLower (getExtension f.fileName) ∉ allowedBookExtensions →
      UploadBookFile (some f) storedName storage =
        (.badRequest "Invalid file type. Only book files (PDF, EPUB, DOCX, etc.) are allowed.",
          storage)) := by
  refine ⟨rfl, ?_, ?_, ?_, rfl, ?_, ?_, ?_⟩
  · intro h0
    simp [UploadImage, uploadFile, h0]
  · intro hbig
    have h0 : ¬(f.length = 0) := by omega
    have hle : ¬(f.length ≤ MaxImageSize) := by omega
    simp [UploadImage, uploadFile, h0, Nat.lt_iff_add_one_le, hbig,
      Nat.not_le.mpr hbig]
  · intro h0 hle hext
    simp [UploadImage, uploadFile, h0, Nat.not_lt.mpr hle, hext]
  · intro h0
    simp [UploadBookFile, uploadFile, h0]
  · intro hbig
    have h0 : ¬(f.length = 0) := by omega
    simp [UploadBookFile, uploadFile, h0, hbig, Nat.not_le.mpr hbig]
  · intro h0 hle hext
    simp [UploadBookFile, uploadFile, h0, Nat.not_lt.mpr hle, hext]

theorem upload_validation_witness :
    UploadImage (some { length := 6291456, fileName := "cover.jpg" }) "s" [] =
      (.badRequest "File size exceeds maximum allowed size of 5MB", []) ∧
    UploadImage (some { length := 100, fileName := "cover.exe" }) "s" [] =
      (.badRequest "Invalid file type. Only image files are allowed.", []) ∧
    UploadBookFile (some { length := 104857601, fileName := "book.pdf" }) "s" [] =
      (.badRequest "File size exceeds maximum allowed size of 100MB", []) := by
  refine ⟨?_, ?_, ?_⟩
  · exact (upload_validation_order_and_no_write
      { length := 6291456, fileName := "cover.jpg" } "s" []).2.2.1 (by decide)
  · exact (upload_validation_order_and_no_write
      { length := 100, fileName := "cover.exe" } "s" []).2.2.2.1
      (by decide) (by decide) (by decide)
  · exact (upload_validation_order_and_no_write
      { length := 104857601, fileName := "book.pdf" } "s" []).2.2.2.2.2.2.1
      (by decide)

/-- C7: an unknown email and a wrong password produce the same generic
login failure, revealing nothing about which condition held. -/
theorem login_failure_indistinguishable
    (findByEmail : String → Option User) (verify : String → String → Bool)
    (generateToken : User → String) (e1 p1 e2 p2 : String) (u : User)
    (hunknown : findByEmail e1 = none)
    (hfound : findByEmail e2 = some u)
    (hwrong : verify p2 u.passwordHash = false) :
    Login findByEmail verify generateToken e1 p1 =
      .badRequest "Invalid email or password" ∧
    Login findByEmail verify generateToken e2 p2 =
      .badRequest "Invalid email or password" ∧
    Login findByEmail verify generateToken e1 p1 =
      Login findByEmail verify generateToken e2 p2 := by
  have h1 : Login findByEmail verify generateToken e1 p1 =
      .badRequest "Invalid email or password" := by
    simp [Login, hunknown]
  have h2 : Login findByEmail verify generateToken e2 p2 =
      .badRequest "Invalid email or password" := by
    simp [Login, hfound, hwrong]
  exact ⟨h1, h2, h1.trans h2.symm⟩

theorem login_failure_witness :
    let uw : User :=
      { id := 1, email := "a@x.com", passwordHash := "secret1"
      , fullName := some "A", createdAt := 0, updatedAt := 0 }
    let lookup : String → Option User :=
      fun e => if e = "a@x.com" then some uw else none
    let check : String → String → Bool := fun p h => p == h
    Login lookup check (fun _ => "tok") "unknown@x.com" "secret1" =
      .badRequest "Invalid email or password" ∧
    Login lookup check (fun _ => "tok") "a@x.com" "wrong" =
      .badRequest "Invalid email or password" ∧
    Login lookup check (fun _ => "tok") "unknown@x.com" "secret1" =
      Login lookup check (fun _ => "tok") "a@x.com" "wrong" := by
  intro uw lookup check
  exact login_failure_indistinguishable lookup check (fun _ => "tok")
    "unknown@x.com" "secret1" "a@x.com" "wrong" uw
    (by decide) (by simp [lookup]) (by decide)

theorem listAll_filters_witness :
    let bwit : Book :=
      { id := 1, name := "Harry Potter", category := "Fiction", price := 3,
        description := "wizard tale", userId := 1, createdAt := 0,
        updatedAt := 0, imageUrl := none, fileUrl := none, fileName := none,
        fileSize := none, user := none }
    let fW : BookFiltersDto :=
      { search := some "TALE", category := some "Fiction", minPrice := some 1,
        maxPrice := some 5 }
    let fR : BookFiltersDto :=
      { search := some "TALE", category := none, minPrice := some 0,
        maxPrice := none }
    bwit ∈ GetAllAsync [bwit] (some fW) ∧ bwit ∈ GetAllAsync [bwit] (some fR) := by
  intro bwit fW fR
  have h := listAll_filters_exact_and_monotone [bwit] fW bwit
  have hmem : bwit ∈ GetAllAsync [bwit] (some fW) := by
    refine h.1.mpr ⟨by decide, ?_, ?_, ?_, ?_⟩
    · intro s hs hne
      rw [Option.some_inj] at hs
      subst hs
      right
      decide
    · intro c hc hne
      rw [Option.some_inj] at hc
      subst hc
      decide
    · intro m hm
      rw [Option.some_inj] at hm
      subst hm
      decide
    · intro m hm
      rw [Option.some_inj] at hm
      subst hm
      decide
  refine ⟨hmem, h.2 fR ⟨Or.inl rfl, Or.inr rfl, ?_, Or.inr (Or.inl rfl)⟩ hmem⟩
  exact Or.inr (Or.inr ⟨0, 1, rfl, rfl, by decide⟩)

theorem listByOwner_subset_witness :
    let bwit : Book :=
      { id := 2, name := "N", category := "C", price := 1,
        description := "D", userId := 9, createdAt := 0, updatedAt := 0,
        imageUrl := none, fileUrl := none, fileName := none,
        fileSize := none, user := none }
    bwit ∈ GetAllAsync [bwit] none := by
  intro bwit
  exact listByOwner_subset_listAll [bwit] 9 none bwit (by decide)

set_option maxRecDepth 40000 in
/-- C9 counterexample: a DTO whose name, category and price satisfy every
constraint the claim states and whose description is present is nevertheless
rejected by validation — because `[MaxLength(1000)]` does bound the
description — and the create endpoint turns it away before touching the
store. -/
theorem description_unbounded_counterexample :
    let d : CreateBookDto :=
      { name := "n", category := "c", price := 1,
        description := String.mk (List.replicate 1001 'a'), imageUrl := none,
        fileUrl := none, fileName := none, fileSize := none }
    ((!d.name.isEmpty) = true ∧ d.name.length ≤ 255 ∧
     (!d.category.isEmpty) = true ∧ d.category.length ≤ 100 ∧
     0 ≤ d.price ∧ d.price ≤ mkRat 9999999 100 ∧
     (!d.description.isEmpty) = true) ∧
    validBookDto d = false ∧
    CreateBookEndpoint [] 1 d 1 1 = (.badRequest "Validation failed", []) := by
  intro d
  have hfalse : validBookDto d = false := by decide
  exact ⟨by decide, hfalse, by simp [CreateBookEndpoint, hfalse]⟩

/-- C9 (amended): validation requires name, category and description,
bounds them at 255, 100 and 1000 characters respectively, bounds price to
[0, 99999.99], and any invalid input is rejected with a validation error by
both write endpoints before any persistence attempt. -/
theorem validation_bounds_and_fail_fast (d : CreateBookDto) :
    (validBookDto d = true ↔
      (d.name.isEmpty = false ∧ d.name.length ≤ 255 ∧
       d.category.isEmpty = false ∧ d.category.length ≤ 100 ∧
       0 ≤ d.price ∧ d.price ≤ (99999.99 : ℚ) ∧
       d.description.isEmpty = false ∧ d.description.length ≤ 1000)) ∧
    (validBookDto d = false →
      ∀ (books : List Book) (id r newId now : Nat),
        CreateBookEndpoint books r d newId now =
          (.badRequest "Validation failed", books) ∧
        UpdateBookEndpoint books id r d now =
          (.badRequest "Validation failed", books)) := by
  constructor
  · have hq : mkRat 9999999 100 = (99999.99 : ℚ) := by norm_num
    rw [validBookDto, hq]
    simp only [Bool.and_eq_true, Bool.not_eq_true', decide_eq_true_eq]
    tauto
  · intro hfalse books id r newId now
    constructor
    · simp [CreateBookEndpoint, hfalse]
    · simp [UpdateBookEndpoint, hfalse]

theorem validation_bounds_witness :
    let dgood : CreateBookDto :=
      { name := "n", category := "c", price := 2, description := "d",
        imageUrl := none, fileUrl := none, fileName := none, fileSize := none }
    let dbad : CreateBookDto :=
      { name := "", category := "c", price := 2, description := "d",
        imageUrl := none, fileUrl := none, fileName := none, fileSize := none }
    (dgood.name.isEmpty = false ∧ dgood.name.length ≤ 255 ∧
     dgood.category.isEmpty = false ∧ dgood.category.length ≤ 100 ∧
     0 ≤ dgood.price ∧ dgood.price ≤ (99999.99 : ℚ) ∧
     dgood.description.isEmpty = false ∧ dgood.description.length ≤ 1000) ∧
    CreateBookEndpoint [] 4 dbad 5 6 = (.badRequest "Validation failed", []) ∧
    UpdateBookEndpoint [] 7 4 dbad 6 = (.badRequest "Validation failed", []) := by
  intro dgood dbad
  refine ⟨(validation_bounds_and_fail_fast dgood).1.mp (by decide), ?_, ?_⟩
  · exact ((validation_bounds_and_fail_fast dbad).2 (by decide) [] 7 4 5 6).1
  · exact ((validation_bounds_and_fail_fast dbad).2 (by decide) [] 7 4 5 6).2

/-- C10: the public (unauthenticated) listing and get-book endpoints return,
for every listed book, a view carrying the book's `fileUrl` and — whenever
the owner record is loaded — a nested user view carrying the owner's email
address. -/
theorem public_views_expose_owner_email_and_fileUrl
    (books : List Book) (f : Option BookFiltersDto) (id : Nat) (b : Book) :
    (b ∈ GetAllAsync books f →
      MapToDto b ∈ GetAllBooks books f ∧
      (MapToDto b).fileUrl = b.fileUrl ∧
      ∀ u : User, b.user = some u →
        ∃ ud : UserDto, (MapToDto b).user = some ud ∧ ud.email = u.email) ∧
    (GetByIdAsync books id = some b →
      GetBook books id = .ok (MapToDto b) ∧
      (MapToDto b).fileUrl = b.fileUrl ∧
      ∀ u : User, b.user = some u →
        ∃ ud : UserDto, (MapToDto b).user = some ud ∧ ud.email = u.email) := by
  have hud : ∀ u : User, b.user = some u →
      ∃ ud : UserDto, (MapToDto b).user = some ud ∧ ud.email = u.email := by
    intro u hu
    exact ⟨{ id := u.id, email := u.email, fullName := u.fullName,
             createdAt := u.createdAt }, by simp [MapToDto, hu], rfl⟩
  constructor
  · intro hmem
    exact ⟨List.mem_map_of_mem MapToDto hmem, rfl, hud⟩
  · intro hfound
    exact ⟨by simp [GetBook, hfound], rfl, hud⟩

theorem public_views_witness :
    let uw : User :=
      { id := 3, email := "owner@x.com", passwordHash := "h",
        fullName := some "O", createdAt := 0, updatedAt := 0 }
    let bw : Book :=
      { id := 8, name := "N", category := "C", price := 1,
        description := "D", userId := 3, createdAt := 0, updatedAt := 0,
        imageUrl := none, fileUrl := some "http://host/uploads/books/f.pdf",
        fileName := some "f.pdf", fileSize := some 9, user := some uw }
    MapToDto bw ∈ GetAllBooks [bw] none ∧
    (MapToDto bw).fileUrl = some "http://host/uploads/books/f.pdf" ∧
    ∃ ud : UserDto, (MapToDto bw).user = some ud ∧ ud.email = "owner@x.com" := by
  intro uw bw
  have h := (public_views_expose_owner_email_and_fileUrl [bw] none 8 bw).1
    (by decide)
  exact ⟨h.1, h.2.1, h.2.2 uw rfl⟩

end BookStore
